import Mathlib

/-!
Verification of the stock data-acquisition and technical-indicator code
(`data_source_manager.py`, `smart_monitor_data.py`) against its specification.

Numeric model: upstream bar data are finite decimals, modelled as exact
rationals.  Pandas/NumPy float columns are modelled by `PF`: a rational
together with the IEEE-754 special values `+inf`, `-inf` and `NaN`, with the
IEEE special-value semantics for arithmetic and comparison (0/0 = NaN,
x/0 = ±inf for x ≠ 0, comparisons with NaN are false).  Finite arithmetic is
exact; every property verified here depends only on zero/nonzero/NaN
distinctions that are exact in IEEE-754 double arithmetic as well.
-/

set_option maxRecDepth 100000

attribute [local semireducible] Rat.add Rat.mul Rat.sub Rat.inv

namespace AStock

/-- A pandas/NumPy float value, modelled exactly: a finite rational, `+inf`,
`-inf`, or `NaN`. -/
inductive PF where
  | fin (q : ℚ)
  | pinf
  | ninf
  | nan
deriving DecidableEq, Repr

instance : Inhabited PF := ⟨PF.nan⟩

/-- IEEE-754 addition on `PF` (finite part exact). -/
def PF.add : PF → PF → PF
  | .nan, _ => .nan
  | _, .nan => .nan
  | .fin a, .fin b => .fin (a + b)
  | .pinf, .ninf => .nan
  | .ninf, .pinf => .nan
  | .pinf, _ => .pinf
  | _, .pinf => .pinf
  | .ninf, _ => .ninf
  | _, .ninf => .ninf

/-- IEEE-754 subtraction on `PF` (finite part exact). -/
def PF.sub : PF → PF → PF
  | .nan, _ => .nan
  | _, .nan => .nan
  | .fin a, .fin b => .fin (a - b)
  | .pinf, .pinf => .nan
  | .ninf, .ninf => .nan
  | .pinf, _ => .pinf
  | .ninf, _ => .ninf
  | .fin _, .pinf => .ninf
  | .fin _, .ninf => .pinf

/-- IEEE-754 negation on `PF`. -/
def PF.neg : PF → PF
  | .nan => .nan
  | .fin a => .fin (-a)
  | .pinf => .ninf
  | .ninf => .pinf

/-- IEEE-754 multiplication on `PF` (finite part exact; `0 × inf = NaN`). -/
def PF.mul : PF → PF → PF
  | .nan, _ => .nan
  | _, .nan => .nan
  | .fin a, .fin b => .fin (a * b)
  | .fin a, .pinf => if 0 < a then .pinf else if a < 0 then .ninf else .nan
  | .fin a, .ninf => if 0 < a then .ninf else if a < 0 then .pinf else .nan
  | .pinf, .fin b => if 0 < b then .pinf else if b < 0 then .ninf else .nan
  | .ninf, .fin b => if 0 < b then .ninf else if b < 0 then .pinf else .nan
  | .pinf, .pinf => .pinf
  | .pinf, .ninf => .ninf
  | .ninf, .pinf => .ninf
  | .ninf, .ninf => .pinf

/-- IEEE-754 division on `PF`: `0/0 = NaN`, `x/0 = ±inf` for finite `x ≠ 0`
(the zeros arising in the modelled code are positive zeros), `x/±inf = 0`,
`inf/inf = NaN`; finite part exact. -/
def PF.div : PF → PF → PF
  | .nan, _ => .nan
  | _, .nan => .nan
  | .fin a, .fin b =>
      if b = 0 then (if a = 0 then .nan else if 0 < a then .pinf else .ninf)
      else .fin (a / b)
  | .fin _, .pinf => .fin 0
  | .fin _, .ninf => .fin 0
  | .pinf, .fin b => if b < 0 then .ninf else .pinf
  | .ninf, .fin b => if b < 0 then .pinf else .ninf
  | .pinf, .pinf => .nan
  | .pinf, .ninf => .nan
  | .ninf, .pinf => .nan
  | .ninf, .ninf => .nan

/-- IEEE-754 strict comparison `a < b` on `PF`: any comparison with `NaN`
is false. -/
def PF.lt : PF → PF → Bool
  | .nan, _ => false
  | _, .nan => false
  | .fin a, .fin b => decide (a < b)
  | .fin _, .pinf => true
  | .ninf, .fin _ => true
  | .ninf, .pinf => true
  | _, _ => false

/-- IEEE-754 comparison `a ≤ b` on `PF`: any comparison with `NaN` is false. -/
def PF.le : PF → PF → Bool
  | .nan, _ => false
  | _, .nan => false
  | .fin a, .fin b => decide (a ≤ b)
  | .fin _, .pinf => true
  | .pinf, .fin _ => false
  | .pinf, .pinf => true
  | .ninf, _ => true
  | _, .ninf => false

/-- Pairwise minimum as computed by a pandas rolling `min` (NaN-poisoning). -/
def PF.min2 (a b : PF) : PF :=
  if a = PF.nan ∨ b = PF.nan then PF.nan
  else if PF.le a b then a else b

/-- Pairwise maximum as computed by a pandas rolling `max` (NaN-poisoning). -/
def PF.max2 (a b : PF) : PF :=
  if a = PF.nan ∨ b = PF.nan then PF.nan
  else if PF.le a b then b else a

theorem PF.lt_asymm {a b : PF} (h : PF.lt a b = true) : PF.lt b a = false := by
  cases a <;> cases b <;> simp_all [PF.lt]
  exact le_of_lt h

/-! ### List helpers

`df.iloc[-1]` on a column is the last element of the corresponding list; the
code only evaluates it after the length-≥-60 guard, so the default value of
`lastD` on an empty list is never reached by a guarded caller. -/

/-- Last element of a list, defaulting for the empty list. -/
def lastD {α : Type} [Inhabited α] (l : List α) : α := l.getLast?.getD default

theorem lastD_map {α β : Type} [Inhabited α] [Inhabited β] (f : α → β) (l : List α)
    (h : l ≠ []) : lastD (l.map f) = f (lastD l) := by
  rw [lastD, lastD, List.getLast?_map, List.getLast?_eq_getLast l h]
  rfl

theorem lastD_zipWith {α β γ : Type} [Inhabited α] [Inhabited β] [Inhabited γ]
    (f : α → β → γ) (a : List α) (b : List β)
    (hlen : a.length = b.length) (h : a ≠ []) :
    lastD (List.zipWith f a b) = f (lastD a) (lastD b) := by
  have hna : a.length ≠ 0 := fun hc => h (List.length_eq_zero.mp hc)
  have hsa : a[a.length - 1]? ≠ none := by
    rw [ne_eq, List.getElem?_eq_none_iff]
    omega
  have hsb : b[a.length - 1]? ≠ none := by
    rw [ne_eq, List.getElem?_eq_none_iff]
    omega
  obtain ⟨x, hx⟩ := Option.ne_none_iff_exists.mp hsa
  obtain ⟨y, hy⟩ := Option.ne_none_iff_exists.mp hsb
  rw [lastD, lastD, lastD, List.getLast?_eq_getElem?, List.getLast?_eq_getElem?,
    List.getLast?_eq_getElem?, List.length_zipWith, ← hlen, Nat.min_self,
    List.getElem?_zipWith, ← hx, ← hy]
  rfl

theorem lastD_range_map {α : Type} [Inhabited α] (g : Nat → α) (L : Nat) (h : L ≠ 0) :
    lastD ((List.range L).map g) = g (L - 1) := by
  rw [lastD, List.getLast?_map, List.getLast?_eq_getElem?, List.length_range,
    List.getElem?_range (by omega : L - 1 < L)]
  rfl

theorem lastD_mem {α : Type} [Inhabited α] (l : List α) (h : l ≠ []) : lastD l ∈ l := by
  rw [lastD, List.getLast?_eq_getLast l h]
  exact List.getLast_mem h

theorem lastD_drop {α : Type} [Inhabited α] (l : List α) (n : Nat) (h : n < l.length) :
    lastD (l.drop n) = lastD l := by
  have hidx : n + (l.length - n - 1) = l.length - 1 := by omega
  rw [lastD, lastD, List.getLast?_eq_getElem?, List.getLast?_eq_getElem?,
    List.getElem?_drop, List.length_drop, hidx]

/-! ### Rolling windows and exponentially weighted means (pandas semantics) -/

/-- Value of `series.rolling(window=n).f()` at index `i`: `NaN` during the
warm-up (fewer than `n` values so far), and `f` of the trailing `n`-element
window afterwards (pandas default `min_periods = window`). -/
def rollingAt (f : List PF → PF) (n : Nat) (xs : List PF) (i : Nat) : PF :=
  if n ≤ i + 1 then f ((xs.take (i + 1)).drop (i + 1 - n)) else PF.nan

/-- The full column `series.rolling(window=n).f()`. -/
def rollingPF (f : List PF → PF) (n : Nat) (xs : List PF) : List PF :=
  (List.range xs.length).map (rollingAt f n xs)

theorem length_rollingPF (f : List PF → PF) (n : Nat) (xs : List PF) :
    (rollingPF f n xs).length = xs.length := by
  simp [rollingPF]

theorem lastD_rollingPF (f : List PF → PF) (n : Nat) (xs : List PF)
    (h0 : 0 < n) (hn : n ≤ xs.length) :
    lastD (rollingPF f n xs) = f (xs.drop (xs.length - n)) := by
  rw [rollingPF, lastD_range_map _ _ (by omega), rollingAt, if_pos (by omega)]
  congr 1
  rw [Nat.sub_add_cancel (by omega), List.take_length]

/-- Mean of one full rolling window, summed left-to-right as pandas does
(`NaN`/`inf` propagate through the sum; the empty window gives `0/0 = NaN`). -/
def winMeanPF (w : List PF) : PF :=
  PF.div (w.foldl PF.add (PF.fin 0)) (PF.fin w.length)

/-- Minimum of one full rolling window. -/
def winMinPF : List PF → PF
  | [] => PF.nan
  | x :: xs => xs.foldl PF.min2 x

/-- Maximum of one full rolling window. -/
def winMaxPF : List PF → PF
  | [] => PF.nan
  | x :: xs => xs.foldl PF.max2 x

/-- Square root on `PF`.  The square root of a rational is irrational in
general; `Rat.sqrt` (exact on perfect squares, in particular on the
zero-variance windows arising below) stands in for the real square root.
No verified claim constrains the Bollinger fields that use it. -/
def PF.sqrtPF : PF → PF
  | .fin q => if q < 0 then .nan else .fin (Rat.sqrt q)
  | .pinf => .pinf
  | .ninf => .nan
  | .nan => .nan

/-- Sample standard deviation (`ddof = 1`, pandas default) of one full
rolling window; a single-element window yields `0/0 = NaN`. -/
def winStdPF (w : List PF) : PF :=
  let m := winMeanPF w
  let ss := (w.map (fun x => PF.mul (PF.sub x m) (PF.sub x m))).foldl PF.add (PF.fin 0)
  PF.sqrtPF (PF.div ss (PF.fin (w.length - 1 : Nat)))

/-- One step of the pandas `ewm(adjust=False, ignore_na=False).mean()`
recurrence, carrying the running weighted average `avg` and the decayed old
weight `oldWt` exactly as the pandas window aggregation does: a `NaN` input is
not an observation — the previous average is emitted and the old weight decays;
a valid input updates the average (the update is skipped when the new value
equals the current average, as in pandas) and resets the old weight to 1. -/
def ewmGo (alpha : ℚ) : PF → ℚ → List PF → List PF
  | _, _, [] => []
  | avg, oldWt, cur :: rest =>
    if cur = PF.nan then
      match avg with
      | PF.nan => PF.nan :: ewmGo alpha PF.nan oldWt rest
      | a => a :: ewmGo alpha a (oldWt * (1 - alpha)) rest
    else
      match avg with
      | PF.nan => cur :: ewmGo alpha cur oldWt rest
      | a =>
        let ow := oldWt * (1 - alpha)
        let na := if a = cur then a
          else PF.div (PF.add (PF.mul (PF.fin ow) a) (PF.mul (PF.fin alpha) cur))
            (PF.fin (ow + alpha))
        na :: ewmGo alpha na 1 rest

/-- `series.ewm(..., adjust=False).mean()`: seeded from the first value, then
the recursive update with smoothing factor `alpha`. -/
def ewmAdjFalse (alpha : ℚ) : List PF → List PF
  | [] => []
  | x :: xs => x :: ewmGo alpha x 1 xs

theorem length_ewmGo (alpha : ℚ) (avg : PF) (oldWt : ℚ) (xs : List PF) :
    (ewmGo alpha avg oldWt xs).length = xs.length := by
  induction xs generalizing avg oldWt with
  | nil => rfl
  | cons x t ih =>
    cases avg <;> by_cases hx : x = PF.nan <;> simp [ewmGo, hx, ih]

theorem length_ewmAdjFalse (alpha : ℚ) (xs : List PF) :
    (ewmAdjFalse alpha xs).length = xs.length := by
  cases xs with
  | nil => rfl
  | cons x t => simp [ewmAdjFalse, length_ewmGo]

/-! ### Bars and indicator columns (`SmartMonitorDataFetcher._calculate_all_indicators`)

A `Bar` is one row of the historical-data frame; fields correspond to the
columns 开盘/最高/最低/收盘/成交量/成交额 used by the indicator code. -/

structure Bar where
  open_ : ℚ
  high : ℚ
  low : ℚ
  close : ℚ
  volume : ℚ
  amount : ℚ
deriving DecidableEq, Repr, Inhabited

/-- The 收盘 (close) column as a float series. -/
def closesPF (bars : List Bar) : List PF := bars.map (fun b => PF.fin b.close)

/-- The 最低 (low) column as a float series. -/
def lowsPF (bars : List Bar) : List PF := bars.map (fun b => PF.fin b.low)

/-- The 最高 (high) column as a float series. -/
def highsPF (bars : List Bar) : List PF := bars.map (fun b => PF.fin b.high)

/-- The 成交量 (volume) column as a float series. -/
def volumesPF (bars : List Bar) : List PF := bars.map (fun b => PF.fin b.volume)

/-- `df['ma5'] = df['收盘'].rolling(window=5).mean()`. -/
def ma5Series (bars : List Bar) : List PF := rollingPF winMeanPF 5 (closesPF bars)

/-- `df['ma20'] = df['收盘'].rolling(window=20).mean()`. -/
def ma20Series (bars : List Bar) : List PF := rollingPF winMeanPF 20 (closesPF bars)

/-- `df['ma60'] = df['收盘'].rolling(window=60).mean()`. -/
def ma60Series (bars : List Bar) : List PF := rollingPF winMeanPF 60 (closesPF bars)

/-- `series.ewm(span=span, adjust=False).mean()`: smoothing factor
`2 / (span + 1)`. -/
def emaSpan (span : Nat) (xs : List PF) : List PF :=
  ewmAdjFalse (2 / (span + 1 : ℚ)) xs

/-- `series.ewm(com=com, adjust=False).mean()`: smoothing factor
`1 / (1 + com)`. -/
def ewmCom (com : ℚ) (xs : List PF) : List PF := ewmAdjFalse (1 / (1 + com)) xs

/-- `df['dif'] = ema_fast - ema_slow` with spans 12 and 26
(`_calculate_macd`). -/
def difSeries (bars : List Bar) : List PF :=
  List.zipWith PF.sub (emaSpan 12 (closesPF bars)) (emaSpan 26 (closesPF bars))

/-- `df['dea'] = df['dif'].ewm(span=9, adjust=False).mean()`. -/
def deaSeries (bars : List Bar) : List PF := emaSpan 9 (difSeries bars)

/-- `df['macd'] = (df['dif'] - df['dea']) * 2`. -/
def macdSeries (bars : List Bar) : List PF :=
  (List.zipWith PF.sub (difSeries bars) (deaSeries bars)).map
    (fun x => PF.mul x (PF.fin 2))

/-- `series.diff()`: `NaN` at index 0, else the difference with the previous
element. -/
def diffPF (xs : List PF) : List PF :=
  (List.range xs.length).map (fun i =>
    if i = 0 then PF.nan else PF.sub (xs.getD i PF.nan) (xs.getD (i - 1) PF.nan))

/-- `delta.where(delta > 0, 0)` over the close diffs (`_calculate_rsi`);
the leading `NaN` fails the comparison and becomes 0. -/
def gainSeries (bars : List Bar) : List PF :=
  (diffPF (closesPF bars)).map (fun d => if PF.lt (PF.fin 0) d then d else PF.fin 0)

/-- `-delta.where(delta < 0, 0)` over the close diffs (`_calculate_rsi`). -/
def lossSeries (bars : List Bar) : List PF :=
  (diffPF (closesPF bars)).map (fun d => PF.neg (if PF.lt d (PF.fin 0) then d else PF.fin 0))

/-- `gain.rolling(window=period).mean()`. -/
def avgGainSeries (bars : List Bar) (period : Nat) : List PF :=
  rollingPF winMeanPF period (gainSeries bars)

/-- `loss.rolling(window=period).mean()`. -/
def avgLossSeries (bars : List Bar) (period : Nat) : List PF :=
  rollingPF winMeanPF period (lossSeries bars)

/-- `rs = gain / loss; rsi = 100 - (100 / (1 + rs))` (`_calculate_rsi`).
There is no special casing of a zero average loss: the division follows the
float semantics of `PF.div`. -/
def rsiSeries (bars : List Bar) (period : Nat) : List PF :=
  (List.zipWith PF.div (avgGainSeries bars period) (avgLossSeries bars period)).map
    (fun rs => PF.sub (PF.fin 100) (PF.div (PF.fin 100) (PF.add (PF.fin 1) rs)))

/-- Average gain at the latest bar. -/
def avgGainLast (bars : List Bar) (period : Nat) : PF := lastD (avgGainSeries bars period)

/-- Average loss at the latest bar. -/
def avgLossLast (bars : List Bar) (period : Nat) : PF := lastD (avgLossSeries bars period)

/-- RSI at the latest bar (the value stored into the indicator dict). -/
def rsiLast (bars : List Bar) (period : Nat) : PF := lastD (rsiSeries bars period)

/-- `low_list = df['最低'].rolling(window=9).min()` (`_calculate_kdj`). -/
def lowListSeries (bars : List Bar) : List PF := rollingPF winMinPF 9 (lowsPF bars)

/-- `high_list = df['最高'].rolling(window=9).max()` (`_calculate_kdj`). -/
def highListSeries (bars : List Bar) : List PF := rollingPF winMaxPF 9 (highsPF bars)

/-- `rsv = (df['收盘'] - low_list) / (high_list - low_list) * 100`
(`_calculate_kdj`).  There is no special casing of a zero 9-bar range: the
division follows the float semantics of `PF.div`. -/
def rsvSeries (bars : List Bar) : List PF :=
  (List.zipWith PF.div
      (List.zipWith PF.sub (closesPF bars) (lowListSeries bars))
      (List.zipWith PF.sub (highListSeries bars) (lowListSeries bars))).map
    (fun x => PF.mul x (PF.fin 100))

/-- RSV at the latest bar. -/
def rsvLast (bars : List Bar) : PF := lastD (rsvSeries bars)

/-- `df['kdj_k'] = rsv.ewm(com=m1-1, adjust=False).mean()` with `m1 = 3`. -/
def kdjKSeries (bars : List Bar) : List PF := ewmCom (3 - 1 : ℚ) (rsvSeries bars)

/-- `df['kdj_d'] = df['kdj_k'].ewm(com=m2-1, adjust=False).mean()` with `m2 = 3`. -/
def kdjDSeries (bars : List Bar) : List PF := ewmCom (3 - 1 : ℚ) (kdjKSeries bars)

/-- `df['kdj_j'] = 3 * df['kdj_k'] - 2 * df['kdj_d']`. -/
def kdjJSeries (bars : List Bar) : List PF :=
  List.zipWith PF.sub ((kdjKSeries bars).map (fun k => PF.mul (PF.fin 3) k))
    ((kdjDSeries bars).map (fun d => PF.mul (PF.fin 2) d))

/-- `df['boll_mid'] = df['收盘'].rolling(window=20).mean()` (`_calculate_bollinger`). -/
def bollMidSeries (bars : List Bar) : List PF := rollingPF winMeanPF 20 (closesPF bars)

/-- `std = df['收盘'].rolling(window=20).std()`. -/
def bollStdSeries (bars : List Bar) : List PF := rollingPF winStdPF 20 (closesPF bars)

/-- `df['boll_upper'] = df['boll_mid'] + 2 * std`. -/
def bollUpperSeries (bars : List Bar) : List PF :=
  List.zipWith PF.add (bollMidSeries bars)
    ((bollStdSeries bars).map (fun s => PF.mul (PF.fin 2) s))

/-- `df['boll_lower'] = df['boll_mid'] - 2 * std`. -/
def bollLowerSeries (bars : List Bar) : List PF :=
  List.zipWith PF.sub (bollMidSeries bars)
    ((bollStdSeries bars).map (fun s => PF.mul (PF.fin 2) s))

/-- `df['vol_ma5'] = df['成交量'].rolling(window=5).mean()`. -/
def volMa5Series (bars : List Bar) : List PF := rollingPF winMeanPF 5 (volumesPF bars)

/-- `df['vol_ma10'] = df['成交量'].rolling(window=10).mean()` (computed by the
code but not included in the returned dict). -/
def volMa10Series (bars : List Bar) : List PF := rollingPF winMeanPF 10 (volumesPF bars)

/-- Trend classification of `_calculate_all_indicators`. -/
inductive Trend where
  | up
  | down
  | sideways
deriving DecidableEq, Repr

/-- Bollinger-position classification of `_calculate_all_indicators`
(上轨附近（超买）/ 下轨附近（超卖）/ 中轨上方 / 中轨下方). -/
inductive BollPosition where
  | nearUpper
  | nearLower
  | aboveMid
  | belowMid
deriving DecidableEq, Repr

/-- `current_price = float(latest['收盘'])`. -/
def currentPricePF (bars : List Bar) : PF := lastD (closesPF bars)

/-- `ma5 = float(latest['ma5'])`. -/
def ma5Last (bars : List Bar) : PF := lastD (ma5Series bars)

/-- `ma20 = float(latest['ma20'])`. -/
def ma20Last (bars : List Bar) : PF := lastD (ma20Series bars)

/-- `ma60 = float(latest['ma60'])`. -/
def ma60Last (bars : List Bar) : PF := lastD (ma60Series bars)

/-- The chained comparisons
`if current_price > ma5 > ma20 > ma60: trend = 'up'
 elif current_price < ma5 < ma20 < ma60: trend = 'down'
 else: trend = 'sideways'`. -/
def trendOf (current_price ma5 ma20 ma60 : PF) : Trend :=
  if PF.lt ma5 current_price && PF.lt ma20 ma5 && PF.lt ma60 ma20 then Trend.up
  else if PF.lt current_price ma5 && PF.lt ma5 ma20 && PF.lt ma20 ma60 then Trend.down
  else Trend.sideways

/-- The Bollinger-position branch of `_calculate_all_indicators`. -/
def bollPositionOf (current_price upper mid lower : PF) : BollPosition :=
  if PF.le upper current_price then BollPosition.nearUpper
  else if PF.le current_price lower then BollPosition.nearLower
  else if PF.lt mid current_price then BollPosition.aboveMid
  else BollPosition.belowMid

/-- `float(latest['成交量']) / float(latest['vol_ma5']) if latest['vol_ma5'] > 0
else 1.0`. -/
def volumeRatioOf (latestVolume volMa5 : PF) : PF :=
  if PF.lt (PF.fin 0) volMa5 then PF.div latestVolume volMa5 else PF.fin 1

/-- The indicator dict returned by `_calculate_all_indicators` (one field per
key). -/
structure Snapshot where
  ma5 : PF
  ma20 : PF
  ma60 : PF
  trend : Trend
  macd_dif : PF
  macd_dea : PF
  macd : PF
  rsi6 : PF
  rsi12 : PF
  rsi24 : PF
  kdj_k : PF
  kdj_d : PF
  kdj_j : PF
  boll_upper : PF
  boll_mid : PF
  boll_lower : PF
  boll_position : BollPosition
  vol_ma5 : PF
  volume_ratio : PF
deriving DecidableEq, Repr

/-- The dict built from the last row (`latest = df.iloc[-1]`). -/
def mkSnapshot (bars : List Bar) : Snapshot :=
  { ma5 := ma5Last bars
    ma20 := ma20Last bars
    ma60 := ma60Last bars
    trend := trendOf (currentPricePF bars) (ma5Last bars) (ma20Last bars) (ma60Last bars)
    macd_dif := lastD (difSeries bars)
    macd_dea := lastD (deaSeries bars)
    macd := lastD (macdSeries bars)
    rsi6 := rsiLast bars 6
    rsi12 := rsiLast bars 12
    rsi24 := rsiLast bars 24
    kdj_k := lastD (kdjKSeries bars)
    kdj_d := lastD (kdjDSeries bars)
    kdj_j := lastD (kdjJSeries bars)
    boll_upper := lastD (bollUpperSeries bars)
    boll_mid := lastD (bollMidSeries bars)
    boll_lower := lastD (bollLowerSeries bars)
    boll_position := bollPositionOf (currentPricePF bars) (lastD (bollUpperSeries bars))
      (lastD (bollMidSeries bars)) (lastD (bollLowerSeries bars))
    vol_ma5 := lastD (volMa5Series bars)
    volume_ratio := volumeRatioOf (lastD (volumesPF bars)) (lastD (volMa5Series bars)) }

/-- `SmartMonitorDataFetcher._calculate_all_indicators`: `None` when the frame
is empty or shorter than 60 rows, otherwise the full indicator dict.  (The
body's arithmetic is total, so the `except` handler of the Python code is
unreachable for in-model inputs.) -/
def calculate_all_indicators (bars : List Bar) : Option Snapshot :=
  if bars.isEmpty || bars.length < 60 then none
  else some (mkSnapshot bars)

/-! ### `DataSourceManager` (`data_source_manager.py`)

Upstream providers are modelled as oracles: each call either raises or
returns a frame (`None`, empty, or a list of rows).  Python strings are
modelled as `List Char`. -/

/-- Result of one upstream call: it either raises an exception or returns a
value. -/
inductive Outcome (α : Type) where
  | raises
  | returns (val : α)
deriving DecidableEq

/-- An exception absorbed by an `except` handler. -/
inductive PyError where
  | providerError
deriving DecidableEq, Repr

/-- A `try:`/`except:` block whose body either raises (`Except.error`),
returns early (`some`), or falls through (`none`); the handler only logs, so
both the handler and fall-through continue after the block. -/
def pyTryExcept {α : Type} (body : Except PyError (Option α)) : Option α :=
  match body with
  | .ok r => r
  | .error _ => none

/-- One canonical row of the normalized historical frame (columns after the
rename: date/open/close/high/low/volume/amount; the date is the numeric
YYYYMMDD). -/
structure DayRow where
  date : Nat
  open_ : ℚ
  close : ℚ
  high : ℚ
  low : ℚ
  volume : ℚ
  amount : ℚ
deriving DecidableEq, Repr, Inhabited

/-- One raw row of the tushare `daily` frame (provider-native column names;
volume `vol` is in lots, `amount` in thousand-CNY). -/
structure TsRawRow where
  trade_date : Nat
  open_ : ℚ
  close : ℚ
  high : ℚ
  low : ℚ
  vol : ℚ
  amount : ℚ
deriving DecidableEq, Repr, Inhabited

/-- The `df.rename(columns={'trade_date': 'date', 'vol': 'volume', ...})`
step for the tushare frame: a pure field renaming, no unit change. -/
def renameTushareRow (r : TsRawRow) : DayRow :=
  { date := r.trade_date, open_ := r.open_, close := r.close, high := r.high,
    low := r.low, volume := r.vol, amount := r.amount }

/-- `df['volume'] = df['volume'] * 100; df['amount'] = df['amount'] * 1000`:
lots → shares and thousand-CNY → CNY. -/
def scaleTushareUnits (r : DayRow) : DayRow :=
  { r with volume := r.volume * 100, amount := r.amount * 1000 }

/-- Insertion step of `df.sort_values('date')`. -/
def insertByDate (r : DayRow) : List DayRow → List DayRow
  | [] => [r]
  | x :: xs => if r.date ≤ x.date then r :: x :: xs else x :: insertByDate r xs

/-- `df.sort_values('date')` (ascending by date). -/
def sortByDate : List DayRow → List DayRow
  | [] => []
  | x :: xs => insertByDate x (sortByDate xs)

/-- The tushare branch's normalization pipeline: rename, sort ascending by
date, then convert units. -/
def normalizeTushareFrame (rows : List TsRawRow) : List DayRow :=
  (sortByDate (rows.map renameTushareRow)).map scaleTushareUnits

/-- `DataSourceManager._convert_to_ts_code`: append the market suffix chosen
by the first character; a symbol that is empty or not 6 characters long is
returned unchanged. -/
def convert_to_ts_code (symbol : List Char) : List Char :=
  if symbol = [] ∨ symbol.length ≠ 6 then symbol
  else if symbol.head? = some '6' then symbol ++ ".SH".data
  else if symbol.head? = some '0' ∨ symbol.head? = some '3' then symbol ++ ".SZ".data
  else if symbol.head? = some '8' ∨ symbol.head? = some '4' then symbol ++ ".BJ".data
  else symbol ++ ".SZ".data

/-- Characters before the first `'.'` — the Python `ts_code.split('.')[0]`. -/
def takeUntilDot : List Char → List Char
  | [] => []
  | c :: cs => if c = '.' then [] else c :: takeUntilDot cs

/-- `DataSourceManager._convert_from_ts_code`. -/
def convert_from_ts_code (ts_code : List Char) : List Char :=
  if '.' ∈ ts_code then takeUntilDot ts_code else ts_code

/-- `start_date.replace('-', '')`. -/
def removeDashes (d : List Char) : List Char := d.filter (fun c => c ≠ '-')

/-- The `adj_dict = {'qfq': 'qfq', 'hfq': 'hfq', '': None}` lookup with
default `'qfq'`. -/
def adjParam (adjust : List Char) : Option (List Char) :=
  if adjust = "qfq".data then some "qfq".data
  else if adjust = "hfq".data then some "hfq".data
  else if adjust = [] then none
  else some "qfq".data

/-- Externally observable dispatch steps of `get_stock_hist_data`, recorded
in order. -/
inductive Event where
  | callAkshare (symbol : List Char)
  | convertSymbol (symbol : List Char)
  | callTushare (ts_code : List Char)
deriving DecidableEq, Repr

/-- Body of the akshare `try:` block of `get_stock_hist_data`: the call may
raise; a `None` or empty frame falls through without raising; a nonempty
frame is renamed (a pure field mapping) and returned. -/
def akshareHistAttempt (res : Outcome (Option (List DayRow))) :
    Except PyError (Option (List DayRow)) :=
  match res with
  | .raises => .error .providerError
  | .returns df =>
    match df with
    | some rows => if rows.isEmpty then .ok none else .ok (some rows)
    | none => .ok none

/-- Body of the tushare `try:` block of `get_stock_hist_data`: a nonempty
frame is renamed, sorted and unit-converted. -/
def tushareHistAttempt (res : Outcome (Option (List TsRawRow))) :
    Except PyError (Option (List DayRow)) :=
  match res with
  | .raises => .error .providerError
  | .returns df =>
    match df with
    | some rows => if rows.isEmpty then .ok none else .ok (some (normalizeTushareFrame rows))
    | none => .ok none

/-- `DataSourceManager.get_stock_hist_data`, with the provider calls as
oracles and the dispatch steps traced.  The `Except` in the result records
whether an exception escapes to the caller; every provider fault is absorbed
by `pyTryExcept`, so the result is always `.ok`. -/
def get_stock_hist_data (symbol : List Char) (start_date end_date : Option (List Char))
    (today : List Char) (adjust : List Char) (tushare_available : Bool)
    (akshareResult : Outcome (Option (List DayRow)))
    (tushareResult : Outcome (Option (List TsRawRow))) :
    Except PyError (Option (List DayRow)) × List Event :=
  let _start_date := start_date.map removeDashes
  let _end_date := (end_date.map removeDashes).getD today
  match pyTryExcept (akshareHistAttempt akshareResult) with
  | some rows => (.ok (some rows), [Event.callAkshare symbol])
  | none =>
    if tushare_available then
      let ts_code := convert_to_ts_code symbol
      let _adj := adjParam adjust
      match pyTryExcept (tushareHistAttempt tushareResult) with
      | some rows =>
        (.ok (some rows),
          [Event.callAkshare symbol, Event.convertSymbol symbol, Event.callTushare ts_code])
      | none =>
        (.ok none,
          [Event.callAkshare symbol, Event.convertSymbol symbol, Event.callTushare ts_code])
    else (.ok none, [Event.callAkshare symbol])

/-- One row of the akshare `stock_individual_info_em` frame: an item/value
pair. -/
structure InfoRow where
  item : String
  value : String
deriving DecidableEq, Repr

/-- The fields of the tushare `stock_basic` row used by
`get_stock_basic_info`. -/
structure TsBasicRow where
  name : String
  industry : String
  market : String
  list_date : String
deriving DecidableEq, Repr

/-- The dict built by `get_stock_basic_info` (optional keys are only added by
the akshare/tushare branches). -/
structure BasicInfo where
  symbol : List Char
  name : String
  industry : String
  market : String
  list_date : Option String
  market_cap : Option String
  circulating_market_cap : Option String
deriving DecidableEq, Repr

/-- The initial dict of `get_stock_basic_info`, with the 未知 (unknown)
placeholders. -/
def initialBasicInfo (symbol : List Char) : BasicInfo :=
  { symbol := symbol, name := "未知", industry := "未知", market := "未知",
    list_date := none, market_cap := none, circulating_market_cap := none }

/-- One iteration of the akshare row loop of `get_stock_basic_info`. -/
def applyInfoRow (info : BasicInfo) (r : InfoRow) : BasicInfo :=
  if r.item = "股票简称" then { info with name := r.value }
  else if r.item = "所处行业" then { info with industry := r.value }
  else if r.item = "上市时间" then { info with list_date := some r.value }
  else if r.item = "总市值" then { info with market_cap := some r.value }
  else if r.item = "流通市值" then { info with circulating_market_cap := some r.value }
  else info

/-- Body of the akshare `try:` block of `get_stock_basic_info`: a nonempty
frame is folded into the dict row by row and returned. -/
def akshareInfoAttempt (info : BasicInfo) (res : Outcome (Option (List InfoRow))) :
    Except PyError (Option BasicInfo) :=
  match res with
  | .raises => .error .providerError
  | .returns stock_info =>
    match stock_info with
    | some rows =>
      if rows.isEmpty then .ok none else .ok (some (rows.foldl applyInfoRow info))
    | none => .ok none

/-- Body of the tushare `try:` block of `get_stock_basic_info`: a nonempty
frame's first row fills name/industry/market/list_date. -/
def tushareInfoAttempt (info : BasicInfo) (res : Outcome (Option (List TsBasicRow))) :
    Except PyError (Option BasicInfo) :=
  match res with
  | .raises => .error .providerError
  | .returns df =>
    match df with
    | some (row :: _) =>
      let updated : BasicInfo :=
        { info with
          name := row.name
          industry := row.industry
          market := row.market
          list_date := some row.list_date }
      .ok (some updated)
    | some [] => .ok none
    | none => .ok none

/-- `DataSourceManager.get_stock_basic_info`, with the provider calls as
oracles.  Note the function always returns a dict: when every source fails it
returns the initial placeholder dict, not an unavailable signal. -/
def get_stock_basic_info (symbol : List Char) (tushare_available : Bool)
    (akshareResult : Outcome (Option (List InfoRow)))
    (tushareResult : Outcome (Option (List TsBasicRow))) : BasicInfo :=
  let info := initialBasicInfo symbol
  match pyTryExcept (akshareInfoAttempt info akshareResult) with
  | some result => result
  | none =>
    if tushare_available then
      match pyTryExcept (tushareInfoAttempt info tushareResult) with
      | some result => result
      | none => info
    else info

/-! ### Concrete inputs and well-formedness -/

/-- Sixty identical bars (constant closing price). -/
def constBars60 : List Bar :=
  List.replicate 60
    { open_ := 10, high := 10, low := 10, close := 10, volume := 1000, amount := 10000 }

/-- Fifty-nine identical bars. -/
def constBars59 : List Bar :=
  List.replicate 59
    { open_ := 10, high := 10, low := 10, close := 10, volume := 1000, amount := 10000 }

/-- Sixty bars with strictly increasing closing prices 1, 2, …, 60. -/
def incBars60 : List Bar :=
  (List.range 60).map (fun i =>
    { open_ := (i : ℚ) + 1, high := (i : ℚ) + 1, low := (i : ℚ) + 1,
      close := (i : ℚ) + 1, volume := 1000, amount := 10000 })

/-- A well-formed bar: open and close within the low–high range, nonnegative
volume. -/
def wellFormedBar (b : Bar) : Prop :=
  b.low ≤ b.open_ ∧ b.open_ ≤ b.high ∧ b.low ≤ b.close ∧ b.close ≤ b.high ∧ 0 ≤ b.volume

instance (b : Bar) : Decidable (wellFormedBar b) := by
  unfold wellFormedBar
  infer_instance

/-- A well-formed bar sequence. -/
def wellFormedBars (bars : List Bar) : Prop := ∀ b ∈ bars, wellFormedBar b

instance (bars : List Bar) : Decidable (wellFormedBars bars) := by
  unfold wellFormedBars
  infer_instance

/-! ### Shared lemmas on window minima/maxima and series lengths -/

theorem foldl_min_le_init (a : ℚ) (l : List ℚ) : List.foldl min a l ≤ a := by
  induction l generalizing a with
  | nil => exact le_refl a
  | cons b t ih => exact le_trans (ih (min a b)) (min_le_left a b)

theorem foldl_min_le (a x : ℚ) (l : List ℚ) (hx : x = a ∨ x ∈ l) :
    List.foldl min a l ≤ x := by
  induction l generalizing a with
  | nil =>
    rcases hx with h | h
    · subst h
      exact le_refl x
    · cases h
  | cons b t ih =>
    rcases hx with h | h
    · subst h
      exact le_trans (foldl_min_le_init (min x b) t) (min_le_left x b)
    · rcases List.mem_cons.mp h with h | h
      · subst h
        exact le_trans (foldl_min_le_init (min a x) t) (min_le_right a x)
      · exact ih (min a b) (Or.inr h)

theorem le_foldl_max_init (a : ℚ) (l : List ℚ) : a ≤ List.foldl max a l := by
  induction l generalizing a with
  | nil => exact le_refl a
  | cons b t ih => exact le_trans (le_max_left a b) (ih (max a b))

theorem le_foldl_max (a x : ℚ) (l : List ℚ) (hx : x = a ∨ x ∈ l) :
    x ≤ List.foldl max a l := by
  induction l generalizing a with
  | nil =>
    rcases hx with h | h
    · subst h
      exact le_refl x
    · cases h
  | cons b t ih =>
    rcases hx with h | h
    · subst h
      exact le_trans (le_max_left x b) (le_foldl_max_init (max x b) t)
    · rcases List.mem_cons.mp h with h | h
      · subst h
        exact le_trans (le_max_right a x) (le_foldl_max_init (max a x) t)
      · exact ih (max a b) (Or.inr h)

theorem min2_fin_fin (a b : ℚ) : PF.min2 (PF.fin a) (PF.fin b) = PF.fin (min a b) := by
  by_cases h : a ≤ b <;> simp [PF.min2, PF.le, h, min_def]

theorem max2_fin_fin (a b : ℚ) : PF.max2 (PF.fin a) (PF.fin b) = PF.fin (max a b) := by
  by_cases h : a ≤ b <;> simp [PF.max2, PF.le, h, max_def]

theorem foldl_min2_map_fin (a : ℚ) (l : List ℚ) :
    List.foldl PF.min2 (PF.fin a) (l.map PF.fin) = PF.fin (List.foldl min a l) := by
  induction l generalizing a with
  | nil => rfl
  | cons b t ih => simp [List.foldl, min2_fin_fin, ih]

theorem foldl_max2_map_fin (a : ℚ) (l : List ℚ) :
    List.foldl PF.max2 (PF.fin a) (l.map PF.fin) = PF.fin (List.foldl max a l) := by
  induction l generalizing a with
  | nil => rfl
  | cons b t ih => simp [List.foldl, max2_fin_fin, ih]

theorem length_closesPF (bars : List Bar) : (closesPF bars).length = bars.length := by
  simp [closesPF]

theorem length_diffPF (xs : List PF) : (diffPF xs).length = xs.length := by
  simp [diffPF]

theorem length_gainSeries (bars : List Bar) : (gainSeries bars).length = bars.length := by
  simp [gainSeries, length_diffPF, length_closesPF]

theorem length_lossSeries (bars : List Bar) : (lossSeries bars).length = bars.length := by
  simp [lossSeries, length_diffPF, length_closesPF]

theorem length_avgGainSeries (bars : List Bar) (period : Nat) :
    (avgGainSeries bars period).length = bars.length := by
  simp [avgGainSeries, length_rollingPF, length_gainSeries]

theorem length_avgLossSeries (bars : List Bar) (period : Nat) :
    (avgLossSeries bars period).length = bars.length := by
  simp [avgLossSeries, length_rollingPF, length_lossSeries]

/-- The latest RSI value as the formula applied to the latest average gain and
loss (the elementwise pandas expression evaluated at the last row). -/
theorem rsiLast_eq (bars : List Bar) (period : Nat) (h0 : 0 < period)
    (hp : period ≤ bars.length) :
    rsiLast bars period =
      PF.sub (PF.fin 100) (PF.div (PF.fin 100)
        (PF.add (PF.fin 1) (PF.div (avgGainLast bars period) (avgLossLast bars period)))) := by
  have hLpos : 0 < bars.length := lt_of_lt_of_le h0 hp
  have hlen : (avgGainSeries bars period).length = (avgLossSeries bars period).length := by
    rw [length_avgGainSeries, length_avgLossSeries]
  have hne : avgGainSeries bars period ≠ [] := by
    intro hc
    have hl := length_avgGainSeries bars period
    rw [hc] at hl
    simp only [List.length_nil] at hl
    omega
  have hzne : List.zipWith PF.div (avgGainSeries bars period) (avgLossSeries bars period) ≠ [] := by
    intro hc
    rcases List.zipWith_eq_nil_iff.mp hc with h | h
    · exact hne h
    · have hl := length_avgLossSeries bars period
      rw [h] at hl
      simp only [List.length_nil] at hl
      omega
  rw [rsiLast, rsiSeries, lastD_map _ _ hzne, lastD_zipWith _ _ _ hlen hne]
  rfl

/-- The trailing 9-bar window. -/
def window9 (bars : List Bar) : List Bar := bars.drop (bars.length - 9)

/-- Lowest low of the trailing 9-bar window (`low_list` at the latest bar). -/
def low9 (bars : List Bar) : PF := winMinPF ((window9 bars).map (fun b => PF.fin b.low))

/-- Highest high of the trailing 9-bar window (`high_list` at the latest bar). -/
def high9 (bars : List Bar) : PF := winMaxPF ((window9 bars).map (fun b => PF.fin b.high))

theorem lastD_lowListSeries (bars : List Bar) (h9 : 9 ≤ bars.length) :
    lastD (lowListSeries bars) = low9 bars := by
  rw [lowListSeries, lastD_rollingPF _ _ _ (by omega) (by simpa [lowsPF] using h9)]
  rw [low9, window9, lowsPF, List.length_map]
  congr 1
  exact (List.map_drop _ _ _).symm

theorem lastD_highListSeries (bars : List Bar) (h9 : 9 ≤ bars.length) :
    lastD (highListSeries bars) = high9 bars := by
  rw [highListSeries, lastD_rollingPF _ _ _ (by omega) (by simpa [highsPF] using h9)]
  rw [high9, window9, highsPF, List.length_map]
  congr 1
  exact (List.map_drop _ _ _).symm

theorem lastD_closesPF (bars : List Bar) (h : bars ≠ []) :
    lastD (closesPF bars) = PF.fin (lastD bars).close := by
  rw [closesPF, lastD_map _ _ h]

/-- The latest RSV value as the pandas expression
`(close - low_list) / (high_list - low_list) * 100` evaluated at the last
row. -/
theorem rsvLast_eq (bars : List Bar) (h9 : 9 ≤ bars.length) :
    rsvLast bars =
      PF.mul (PF.div (PF.sub (PF.fin (lastD bars).close) (low9 bars))
        (PF.sub (high9 bars) (low9 bars))) (PF.fin 100) := by
  have hL : 0 < bars.length := by omega
  have hbne : bars ≠ [] := by
    intro hc
    rw [hc] at hL
    simp at hL
  have lc : (closesPF bars).length = bars.length := length_closesPF bars
  have ll : (lowListSeries bars).length = bars.length := by
    simp [lowListSeries, length_rollingPF, lowsPF]
  have lh : (highListSeries bars).length = bars.length := by
    simp [highListSeries, length_rollingPF, highsPF]
  have hcne : closesPF bars ≠ [] := by
    intro hc
    rw [hc] at lc
    simp only [List.length_nil] at lc
    omega
  have hhne : highListSeries bars ≠ [] := by
    intro hc
    rw [hc] at lh
    simp only [List.length_nil] at lh
    omega
  have hnum : List.zipWith PF.sub (closesPF bars) (lowListSeries bars) ≠ [] := by
    intro hc
    rcases List.zipWith_eq_nil_iff.mp hc with h | h
    · exact hcne h
    · rw [h] at ll
      simp only [List.length_nil] at ll
      omega
  have hzne : List.zipWith PF.div
      (List.zipWith PF.sub (closesPF bars) (lowListSeries bars))
      (List.zipWith PF.sub (highListSeries bars) (lowListSeries bars)) ≠ [] := by
    intro hc
    rcases List.zipWith_eq_nil_iff.mp hc with h | h
    · exact hnum h
    · rcases List.zipWith_eq_nil_iff.mp h with h' | h'
      · exact hhne h'
      · rw [h'] at ll
        simp only [List.length_nil] at ll
        omega
  rw [rsvLast, rsvSeries, lastD_map _ _ hzne,
    lastD_zipWith _ _ _ (by simp [List.length_zipWith, lc, ll, lh]) hnum,
    lastD_zipWith _ _ _ (by simp [lc, ll]) hcne,
    lastD_zipWith _ _ _ (by simp [lh, ll]) hhne,
    lastD_closesPF bars hbne, lastD_lowListSeries bars h9, lastD_highListSeries bars h9]

/-- Case analysis of the chained trend comparisons: `up` and `down` are
mutually exclusive because `PF.lt` is asymmetric, and `sideways` is exactly
the remaining case. -/
theorem trendOf_spec (cp m5 m20 m60 : PF) :
    (trendOf cp m5 m20 m60 = Trend.up ↔
      (PF.lt m5 cp = true ∧ PF.lt m20 m5 = true ∧ PF.lt m60 m20 = true))
    ∧ (trendOf cp m5 m20 m60 = Trend.down ↔
      (PF.lt cp m5 = true ∧ PF.lt m5 m20 = true ∧ PF.lt m20 m60 = true))
    ∧ (trendOf cp m5 m20 m60 = Trend.sideways ↔
      (¬(PF.lt m5 cp = true ∧ PF.lt m20 m5 = true ∧ PF.lt m60 m20 = true)
       ∧ ¬(PF.lt cp m5 = true ∧ PF.lt m5 m20 = true ∧ PF.lt m20 m60 = true))) := by
  unfold trendOf
  by_cases h1 : (PF.lt m5 cp && PF.lt m20 m5 && PF.lt m60 m20) = true
  · have h1' := h1
    rw [Bool.and_eq_true, Bool.and_eq_true] at h1'
    have hdown : PF.lt cp m5 = false := PF.lt_asymm h1'.1.1
    simp [h1, h1', hdown]
  · by_cases h2 : (PF.lt cp m5 && PF.lt m5 m20 && PF.lt m20 m60) = true
    · have h2' := h2
      rw [Bool.and_eq_true, Bool.and_eq_true] at h2'
      have hup : PF.lt m5 cp = false := PF.lt_asymm h2'.1.1
      simp [h1, h2, h2', hup]
    · have e1 : ∀ (_ : PF.lt m5 cp = true) (_ : PF.lt m20 m5 = true),
          PF.lt m60 m20 = false := by
        intro ha hb
        cases hc : PF.lt m60 m20
        · rfl
        · exact absurd (by rw [ha, hb, hc]; rfl) h1
      have e2 : ∀ (_ : PF.lt cp m5 = true) (_ : PF.lt m5 m20 = true),
          PF.lt m20 m60 = false := by
        intro ha hb
        cases hc : PF.lt m20 m60
        · rfl
        · exact absurd (by rw [ha, hb, hc]; rfl) h2
      simp only [if_neg h1, if_neg h2]
      simp [h1, h2]
      exact ⟨e1, e2, e1, e2⟩

/-! ### Claim theorems -/

/-- C1, counterexample: on sixty bars of constant closing price the trailing
average loss is zero (shown for n = 6), yet every RSI value in the returned
snapshot is `NaN` (pandas `0/0`), not 100 — refuting the claim that RSI is
then exactly 100 and never NaN. -/
theorem rsi_constant_price_counterexample :
    (calculate_all_indicators constBars60).map Snapshot.rsi6 = some PF.nan
    ∧ (calculate_all_indicators constBars60).map Snapshot.rsi12 = some PF.nan
    ∧ (calculate_all_indicators constBars60).map Snapshot.rsi24 = some PF.nan
    ∧ avgLossLast constBars60 6 = PF.fin 0
    ∧ PF.nan ≠ PF.fin 100 := by
  refine ⟨by decide, by decide, by decide, by decide, by decide⟩

/-- C1, amended: for a bar sequence of length ≥ 60 and n ∈ {6, 12, 24} with
trailing n-bar average loss zero, the RSI(n) value produced by the indicator
computation is exactly 100 when the average gain is positive, but is `NaN`
when the average gain is also zero (in particular for a constant closing
price); the snapshot's RSI fields are these latest-bar series values. -/
theorem rsi_zero_avg_loss (bars : List Bar) (n : Nat) (g : ℚ)
    (h60 : 60 ≤ bars.length) (hn : n = 6 ∨ n = 12 ∨ n = 24)
    (hloss : avgLossLast bars n = PF.fin 0)
    (hgain : avgGainLast bars n = PF.fin g) :
    ((mkSnapshot bars).rsi6 = rsiLast bars 6
      ∧ (mkSnapshot bars).rsi12 = rsiLast bars 12
      ∧ (mkSnapshot bars).rsi24 = rsiLast bars 24)
    ∧ (0 < g → rsiLast bars n = PF.fin 100)
    ∧ (g = 0 → rsiLast bars n = PF.nan) := by
  have h0 : 0 < n := by rcases hn with h | h | h <;> omega
  have hp : n ≤ bars.length := by rcases hn with h | h | h <;> omega
  refine ⟨⟨rfl, rfl, rfl⟩, ?_, ?_⟩
  · intro hg
    rw [rsiLast_eq bars n h0 hp, hloss, hgain]
    simp [PF.div, PF.add, PF.sub, hg, ne_of_gt hg]
  · intro hg
    subst hg
    rw [rsiLast_eq bars n h0 hp, hloss, hgain]
    simp [PF.div, PF.add, PF.sub]

/-- C1, witness: the amended theorem at concrete inputs — sixty constant bars
give RSI(6) = NaN, sixty strictly rising bars (zero average loss, positive
average gain) give RSI(6) = 100. -/
theorem rsi_zero_avg_loss_witness :
    rsiLast constBars60 6 = PF.nan ∧ rsiLast incBars60 6 = PF.fin 100 := by
  constructor
  · exact (rsi_zero_avg_loss constBars60 6 0 (by decide) (Or.inl rfl)
      (by decide) (by decide)).2.2 rfl
  · exact (rsi_zero_avg_loss incBars60 6 1 (by decide) (Or.inl rfl)
      (by decide) (by decide)).2.1 one_pos

/-- C2, counterexample: on sixty flat bars the trailing 9-bar highest high
equals the 9-bar lowest low, yet the KDJ computation assigns RSV = NaN
(pandas `0/0`), not 50, and the returned K, D and J are all NaN rather than
well-defined finite numbers. -/
theorem kdj_flat_range_counterexample :
    high9 constBars60 = low9 constBars60
    ∧ rsvLast constBars60 = PF.nan
    ∧ (calculate_all_indicators constBars60).map Snapshot.kdj_k = some PF.nan
    ∧ (calculate_all_indicators constBars60).map Snapshot.kdj_d = some PF.nan
    ∧ (calculate_all_indicators constBars60).map Snapshot.kdj_j = some PF.nan
    ∧ PF.nan ≠ PF.fin 50 := by
  refine ⟨by decide, by decide, by decide, by decide, by decide, by decide⟩

/-- C2, amended: for every well-formed bar sequence of length ≥ 60 whose
trailing 9-bar highest high equals its 9-bar lowest low at the latest bar,
the KDJ computation assigns RSV = NaN (pandas `0/0`) for that bar — not 50;
the rolling high/low columns at the latest bar are exactly the 9-bar window
extrema. -/
theorem kdj_zero_range_rsv_nan (bars : List Bar) (h60 : 60 ≤ bars.length)
    (hwf : ∀ b ∈ bars, b.low ≤ b.close ∧ b.close ≤ b.high)
    (hflat : high9 bars = low9 bars) :
    lastD (highListSeries bars) = high9 bars
    ∧ lastD (lowListSeries bars) = low9 bars
    ∧ rsvLast bars = PF.nan := by
  have h9 : 9 ≤ bars.length := by omega
  refine ⟨lastD_highListSeries bars h9, lastD_lowListSeries bars h9, ?_⟩
  have hbne : bars ≠ [] := by
    intro hc
    rw [hc] at h60
    simp at h60
  have hwlen : (window9 bars).length = 9 := by
    simp only [window9, List.length_drop]
    omega
  have hwne : window9 bars ≠ [] := by
    intro hc
    rw [hc] at hwlen
    simp at hwlen
  have hmem : lastD bars ∈ window9 bars := by
    rw [show lastD bars = lastD (window9 bars) from
      (lastD_drop bars (bars.length - 9) (by omega)).symm]
    exact lastD_mem _ hwne
  obtain ⟨w, t, hwt⟩ : ∃ w t, window9 bars = w :: t := by
    cases hw : window9 bars with
    | nil => exact absurd hw hwne
    | cons w t => exact ⟨w, t, rfl⟩
  have hlow : low9 bars = PF.fin (List.foldl min w.low (t.map Bar.low)) := by
    rw [low9, hwt]
    have hmaps : (w :: t).map (fun b => PF.fin b.low)
        = PF.fin w.low :: ((t.map Bar.low).map PF.fin) := by
      simp only [List.map_cons, List.map_map]
      rfl
    rw [hmaps]
    show ((t.map Bar.low).map PF.fin).foldl PF.min2 (PF.fin w.low) = _
    rw [foldl_min2_map_fin]
  have hhigh : high9 bars = PF.fin (List.foldl max w.high (t.map Bar.high)) := by
    rw [high9, hwt]
    have hmaps : (w :: t).map (fun b => PF.fin b.high)
        = PF.fin w.high :: ((t.map Bar.high).map PF.fin) := by
      simp only [List.map_cons, List.map_map]
      rfl
    rw [hmaps]
    show ((t.map Bar.high).map PF.fin).foldl PF.max2 (PF.fin w.high) = _
    rw [foldl_max2_map_fin]
  have hr : List.foldl max w.high (t.map Bar.high)
      = List.foldl min w.low (t.map Bar.low) := by
    rw [hhigh, hlow] at hflat
    exact PF.fin.inj hflat
  rw [hwt] at hmem
  have hb_low : List.foldl min w.low (t.map Bar.low) ≤ (lastD bars).low := by
    rcases List.mem_cons.mp hmem with h | h
    · exact foldl_min_le _ _ _ (Or.inl (by rw [h]))
    · exact foldl_min_le _ _ _ (Or.inr (List.mem_map_of_mem _ h))
  have hb_high : (lastD bars).high ≤ List.foldl max w.high (t.map Bar.high) := by
    rcases List.mem_cons.mp hmem with h | h
    · exact le_foldl_max _ _ _ (Or.inl (by rw [h]))
    · exact le_foldl_max _ _ _ (Or.inr (List.mem_map_of_mem _ h))
  have hwfb := hwf (lastD bars) (lastD_mem bars hbne)
  have hclose : (lastD bars).close = List.foldl min w.low (t.map Bar.low) :=
    le_antisymm (le_trans hwfb.2 (le_trans hb_high (le_of_eq hr)))
      (le_trans hb_low hwfb.1)
  rw [rsvLast_eq bars h9, hlow, hhigh, hclose, hr]
  simp [PF.sub, PF.div, PF.mul, sub_self]

/-- C2, witness: the amended theorem at sixty flat bars — the 9-bar range is
zero and the latest RSV is NaN. -/
theorem kdj_zero_range_rsv_nan_witness :
    (60 ≤ constBars60.length ∧ high9 constBars60 = low9 constBars60)
    ∧ rsvLast constBars60 = PF.nan := by
  refine ⟨⟨by decide, by decide⟩,
    (kdj_zero_range_rsv_nan constBars60 (by decide) (by decide) (by decide)).2.2⟩

/-- Failure of the primary (akshare) historical-data call as described by the
claim: it raises, or returns `None`, or returns an empty frame. -/
def histPrimaryFails (r : Outcome (Option (List DayRow))) : Prop :=
  r = Outcome.raises ∨ r = Outcome.returns none ∨ r = Outcome.returns (some [])

/-- Failure of the secondary (tushare) historical-data call: it raises, or
returns `None`, or returns an empty frame. -/
def histSecondaryFails (r : Outcome (Option (List TsRawRow))) : Prop :=
  r = Outcome.raises ∨ r = Outcome.returns none ∨ r = Outcome.returns (some [])

/-- C3: whenever the primary source fails (raises, `None`, or empty) and the
secondary source is unavailable or fails likewise, `get_stock_hist_data`
returns `None` to the caller and no exception escapes (the result is `.ok`). -/
theorem hist_all_sources_fail (symbol : List Char) (sd ed : Option (List Char))
    (today adjust : List Char) (ta : Bool)
    (ak : Outcome (Option (List DayRow))) (ts : Outcome (Option (List TsRawRow)))
    (hak : histPrimaryFails ak) (hts : ta = false ∨ histSecondaryFails ts) :
    (get_stock_hist_data symbol sd ed today adjust ta ak ts).1 = Except.ok none := by
  have h1 : pyTryExcept (akshareHistAttempt ak) = none := by
    rcases hak with h | h | h <;> subst h <;> rfl
  rcases hts with h | h
  · subst h
    simp [get_stock_hist_data, h1]
  · have h2 : pyTryExcept (tushareHistAttempt ts) = none := by
      rcases h with h | h | h <;> subst h <;> rfl
    cases ta <;> simp [get_stock_hist_data, h1, h2]

/-- C3, witness: both sources raising on a concrete request yields `.ok none`. -/
theorem hist_all_sources_fail_witness :
    histPrimaryFails Outcome.raises
    ∧ (get_stock_hist_data "600519".data none none "20240101".data "qfq".data true
        Outcome.raises Outcome.raises).1 = Except.ok none :=
  ⟨Or.inl rfl,
    hist_all_sources_fail _ _ _ _ _ _ _ _ (Or.inl rfl) (Or.inr (Or.inl rfl))⟩

/-- C4: indicator computation returns `None` for every input shorter than 60
bars, and returns the full snapshot for every well-formed input of length
exactly 60. -/
theorem insufficient_data_threshold (bars : List Bar) :
    (bars.length < 60 → calculate_all_indicators bars = none)
    ∧ (bars.length = 60 → wellFormedBars bars →
        calculate_all_indicators bars = some (mkSnapshot bars)) := by
  constructor
  · intro h
    simp [calculate_all_indicators, h]
  · intro h _
    have hne : bars.isEmpty = false := by
      cases bars with
      | nil => simp at h
      | cons a t => rfl
    simp [calculate_all_indicators, hne, h]

/-- C4, witness: fifty-nine bars give `None`; sixty well-formed bars give the
snapshot. -/
theorem insufficient_data_threshold_witness :
    calculate_all_indicators constBars59 = none
    ∧ calculate_all_indicators constBars60 = some (mkSnapshot constBars60) :=
  ⟨(insufficient_data_threshold constBars59).1 (by decide),
    (insufficient_data_threshold constBars60).2 (by decide) (by decide)⟩

/-- C5: for every record obtained from the secondary source, normalization
multiplies the volume field (lots) by exactly 100 and the amount field
(thousand-CNY) by exactly 1000; in particular volume 10 ↦ 1000 and amount
5 ↦ 5000, and the frame normalization applies this to each row. -/
theorem tushare_unit_normalization (r : TsRawRow) :
    (scaleTushareUnits (renameTushareRow r)).volume = r.vol * 100
    ∧ (scaleTushareUnits (renameTushareRow r)).amount = r.amount * 1000
    ∧ normalizeTushareFrame [r] = [scaleTushareUnits (renameTushareRow r)]
    ∧ (scaleTushareUnits (renameTushareRow
        { trade_date := 20240102, open_ := 10, close := 11, high := 12, low := 9,
          vol := 10, amount := 5 })).volume = 1000
    ∧ (scaleTushareUnits (renameTushareRow
        { trade_date := 20240102, open_ := 10, close := 11, high := 12, low := 9,
          vol := 10, amount := 5 })).amount = 5000 := by
  refine ⟨rfl, rfl, rfl, by decide, by decide⟩

/-- The concrete tushare row used by the C6 witness. -/
def tsRowExample : TsRawRow :=
  { trade_date := 20240102, open_ := 10, close := 11, high := 12, low := 9,
    vol := 10, amount := 5 }

/-- C6: when the primary source returns `None` or an empty frame, no exception
is raised — the fetch falls through to the secondary source — and when the
secondary source succeeds with a nonempty frame, the caller receives its
normalized result. -/
theorem hist_empty_primary_fallthrough (symbol : List Char)
    (sd ed : Option (List Char)) (today adjust : List Char)
    (ak : Outcome (Option (List DayRow))) (rows : List TsRawRow)
    (hak : ak = Outcome.returns none ∨ ak = Outcome.returns (some []))
    (hrows : rows ≠ []) :
    (get_stock_hist_data symbol sd ed today adjust true ak
        (Outcome.returns (some rows))).1
      = Except.ok (some (normalizeTushareFrame rows)) := by
  have h1 : pyTryExcept (akshareHistAttempt ak) = none := by
    rcases hak with h | h <;> subst h <;> rfl
  have hre : rows.isEmpty = false := by
    cases rows with
    | nil => exact absurd rfl hrows
    | cons a t => rfl
  have h2 : pyTryExcept (tushareHistAttempt (Outcome.returns (some rows)))
      = some (normalizeTushareFrame rows) := by
    simp [pyTryExcept, tushareHistAttempt, hre]
  simp [get_stock_hist_data, h1, h2]

/-- C6, witness: empty primary frame, secondary returns one row with
volume 10 lots and amount 5 thousand-CNY; the caller receives the normalized
row (volume 1000 shares, amount 5000 CNY). -/
theorem hist_empty_primary_fallthrough_witness :
    (get_stock_hist_data "600519".data none none "20240101".data "qfq".data true
        (Outcome.returns (some [])) (Outcome.returns (some [tsRowExample]))).1
      = Except.ok (some (normalizeTushareFrame [tsRowExample]))
    ∧ normalizeTushareFrame [tsRowExample]
      = [{ date := 20240102, open_ := 10, close := 11, high := 12, low := 9,
           volume := 1000, amount := 5000 }] :=
  ⟨hist_empty_primary_fallthrough _ _ _ _ _ _ _ (Or.inr rfl) (by decide),
    by decide⟩

/-- C7: for every bar sequence of length ≥ 60 the computation succeeds and,
in the returned snapshot, trend is `up` iff close > ma5 > ma20 > ma60 at the
latest bar, `down` iff close < ma5 < ma20 < ma60, and `sideways` in every
other ordering (float comparisons, so any comparison involving NaN is
false). -/
theorem trend_classification (bars : List Bar) (h60 : 60 ≤ bars.length) :
    calculate_all_indicators bars = some (mkSnapshot bars)
    ∧ ((mkSnapshot bars).trend = Trend.up ↔
        (PF.lt (mkSnapshot bars).ma5 (currentPricePF bars) = true
         ∧ PF.lt (mkSnapshot bars).ma20 (mkSnapshot bars).ma5 = true
         ∧ PF.lt (mkSnapshot bars).ma60 (mkSnapshot bars).ma20 = true))
    ∧ ((mkSnapshot bars).trend = Trend.down ↔
        (PF.lt (currentPricePF bars) (mkSnapshot bars).ma5 = true
         ∧ PF.lt (mkSnapshot bars).ma5 (mkSnapshot bars).ma20 = true
         ∧ PF.lt (mkSnapshot bars).ma20 (mkSnapshot bars).ma60 = true))
    ∧ ((mkSnapshot bars).trend = Trend.sideways ↔
        (¬(PF.lt (mkSnapshot bars).ma5 (currentPricePF bars) = true
           ∧ PF.lt (mkSnapshot bars).ma20 (mkSnapshot bars).ma5 = true
           ∧ PF.lt (mkSnapshot bars).ma60 (mkSnapshot bars).ma20 = true)
         ∧ ¬(PF.lt (currentPricePF bars) (mkSnapshot bars).ma5 = true
           ∧ PF.lt (mkSnapshot bars).ma5 (mkSnapshot bars).ma20 = true
           ∧ PF.lt (mkSnapshot bars).ma20 (mkSnapshot bars).ma60 = true))) := by
  have hne : bars.isEmpty = false := by
    cases bars with
    | nil => simp at h60
    | cons a t => rfl
  have hlt : ¬bars.length < 60 := by omega
  have hsome : calculate_all_indicators bars = some (mkSnapshot bars) := by
    simp [calculate_all_indicators, hne, hlt]
  exact ⟨hsome,
    trendOf_spec (currentPricePF bars) (ma5Last bars) (ma20Last bars) (ma60Last bars)⟩

/-- C7, witness: sixty strictly rising bars — the snapshot is produced and
classified as an uptrend. -/
theorem trend_classification_witness :
    calculate_all_indicators incBars60 = some (mkSnapshot incBars60)
    ∧ (mkSnapshot incBars60).trend = Trend.up := by
  have h := trend_classification incBars60 (by decide)
  exact ⟨h.1, h.2.1.mpr ⟨by decide, by decide, by decide⟩⟩

/-- C8, counterexample: for the malformed symbol "ABC" the fetch still
contacts the primary provider first, the translation happens only afterwards
inside the secondary branch, and the translation returns the symbol unchanged
rather than short-circuiting — refuting both halves of the claim. -/
theorem symbol_translation_counterexample :
    (get_stock_hist_data "ABC".data none none "20240101".data "qfq".data true
        Outcome.raises Outcome.raises).2
      = [Event.callAkshare "ABC".data, Event.convertSymbol "ABC".data,
         Event.callTushare "ABC".data]
    ∧ convert_to_ts_code "ABC".data = "ABC".data
    ∧ (get_stock_hist_data "ABC".data none none "20240101".data "qfq".data true
        Outcome.raises Outcome.raises).1 = Except.ok none := by
  refine ⟨by decide, by decide, rfl⟩

/-- C8, amended: symbol translation is performed only inside the secondary
(tushare) branch, after the primary provider has already been dispatched — the
first traced event is always the akshare call — and a malformed symbol (length
≠ 6) is returned unchanged by the translation instead of short-circuiting, so
when the primary fails and the secondary is configured the secondary is still
contacted with the untranslated symbol. -/
theorem symbol_translation_order (symbol : List Char) (sd ed : Option (List Char))
    (today adjust : List Char) (ta : Bool) (ak : Outcome (Option (List DayRow)))
    (ts : Outcome (Option (List TsRawRow))) (hmal : symbol.length ≠ 6) :
    convert_to_ts_code symbol = symbol
    ∧ (get_stock_hist_data symbol sd ed today adjust ta ak ts).2.head?
        = some (Event.callAkshare symbol)
    ∧ (histPrimaryFails ak → ta = true →
        (get_stock_hist_data symbol sd ed today adjust ta ak ts).2
          = [Event.callAkshare symbol, Event.convertSymbol symbol,
             Event.callTushare (convert_to_ts_code symbol)]) := by
  refine ⟨?_, ?_, ?_⟩
  · rw [convert_to_ts_code, if_pos (Or.inr hmal)]
  · unfold get_stock_hist_data
    cases h : pyTryExcept (akshareHistAttempt ak) with
    | some rows => rfl
    | none =>
      cases ta with
      | false => rfl
      | true => cases h2 : pyTryExcept (tushareHistAttempt ts) <;> rfl
  · intro hak hta
    subst hta
    have h1 : pyTryExcept (akshareHistAttempt ak) = none := by
      rcases hak with h | h | h <;> subst h <;> rfl
    simp only [get_stock_hist_data, h1]
    cases h2 : pyTryExcept (tushareHistAttempt ts) <;> simp [h2]

/-- C8, witness: the amended theorem at the malformed symbol "ABC". -/
theorem symbol_translation_order_witness :
    ("ABC".data.length ≠ 6) ∧ convert_to_ts_code "ABC".data = "ABC".data :=
  ⟨by decide, (symbol_translation_order "ABC".data none none "20240101".data
      "qfq".data true Outcome.raises Outcome.raises (by decide)).1⟩

/-- Failure of the primary (akshare) basic-info call: raises, `None`, or an
empty frame. -/
def basicPrimaryFails (r : Outcome (Option (List InfoRow))) : Prop :=
  r = Outcome.raises ∨ r = Outcome.returns none ∨ r = Outcome.returns (some [])

/-- Failure of the secondary (tushare) basic-info call: raises, `None`, or an
empty frame. -/
def basicSecondaryFails (r : Outcome (Option (List TsBasicRow))) : Prop :=
  r = Outcome.raises ∨ r = Outcome.returns none ∨ r = Outcome.returns (some [])

/-- C9, counterexample: with every source failing, `get_stock_basic_info`
returns the placeholder record whose name/industry/market are the 未知
(unknown) defaults — a partially populated record silently presented as the
result, not an explicit unavailable signal. -/
theorem basic_info_placeholder_counterexample :
    get_stock_basic_info "600519".data false Outcome.raises Outcome.raises
      = initialBasicInfo "600519".data
    ∧ (initialBasicInfo "600519".data).name = "未知"
    ∧ (initialBasicInfo "600519".data).industry = "未知"
    ∧ (initialBasicInfo "600519".data).market = "未知" :=
  ⟨rfl, rfl, rfl, rfl⟩

/-- C9, amended: when the primary basic-info source fails and the secondary is
unavailable or fails, the fetch returns exactly the placeholder record with
name/industry/market = 未知 — not an explicit unavailable outcome. -/
theorem basic_info_all_fail_placeholder (symbol : List Char) (ta : Bool)
    (ak : Outcome (Option (List InfoRow))) (ts : Outcome (Option (List TsBasicRow)))
    (hak : basicPrimaryFails ak) (hts : ta = false ∨ basicSecondaryFails ts) :
    get_stock_basic_info symbol ta ak ts = initialBasicInfo symbol := by
  have h1 : pyTryExcept (akshareInfoAttempt (initialBasicInfo symbol) ak) = none := by
    rcases hak with h | h | h <;> subst h <;> rfl
  rcases hts with h | h
  · subst h
    simp [get_stock_basic_info, h1]
  · have h2 : pyTryExcept (tushareInfoAttempt (initialBasicInfo symbol) ts) = none := by
      rcases h with h | h | h <;> subst h <;> rfl
    cases ta <;> simp [get_stock_basic_info, h1, h2]

/-- C9, witness: the amended theorem with both sources raising. -/
theorem basic_info_all_fail_placeholder_witness :
    basicPrimaryFails Outcome.raises
    ∧ get_stock_basic_info "000001".data true Outcome.raises Outcome.raises
      = initialBasicInfo "000001".data :=
  ⟨Or.inl rfl,
    basic_info_all_fail_placeholder _ _ _ _ (Or.inl rfl) (Or.inr (Or.inl rfl))⟩

theorem takeUntilDot_append (s rest : List Char) (h : '.' ∉ s) :
    takeUntilDot (s ++ '.' :: rest) = s := by
  induction s with
  | nil => simp [takeUntilDot]
  | cons c t ih =>
    have hc : ¬(c = '.') := fun hc => h (by simp [hc])
    have ht : '.' ∉ t := fun hm => h (List.mem_cons_of_mem _ hm)
    simp [takeUntilDot, hc, ih ht]

/-- C10: for every 6-character dot-free symbol, converting to provider format
and back is the identity, and the conversion appends exactly one of the
suffixes ".SH"/".SZ"/".BJ", chosen by the first character ('6' → .SH, '0' or
'3' → .SZ, '8' or '4' → .BJ, anything else → .SZ). -/
theorem ts_code_round_trip (s : List Char) (h6 : s.length = 6) (hd : '.' ∉ s) :
    convert_from_ts_code (convert_to_ts_code s) = s
    ∧ (convert_to_ts_code s = s ++ ".SH".data
       ∨ convert_to_ts_code s = s ++ ".SZ".data
       ∨ convert_to_ts_code s = s ++ ".BJ".data)
    ∧ (s.head? = some '6' → convert_to_ts_code s = s ++ ".SH".data)
    ∧ ((s.head? = some '0' ∨ s.head? = some '3') →
        convert_to_ts_code s = s ++ ".SZ".data)
    ∧ ((s.head? = some '8' ∨ s.head? = some '4') →
        convert_to_ts_code s = s ++ ".BJ".data)
    ∧ (s.head? ≠ some '6' → ¬(s.head? = some '0' ∨ s.head? = some '3') →
        ¬(s.head? = some '8' ∨ s.head? = some '4') →
        convert_to_ts_code s = s ++ ".SZ".data) := by
  have hguard : ¬(s = [] ∨ s.length ≠ 6) := by
    rintro (h | h)
    · rw [h] at h6
      simp at h6
    · exact h h6
  have hrt : ∀ rest : List Char, convert_from_ts_code (s ++ '.' :: rest) = s := by
    intro rest
    rw [convert_from_ts_code, if_pos (by simp), takeUntilDot_append s rest hd]
  rw [convert_to_ts_code, if_neg hguard]
  by_cases h1 : s.head? = some '6'
  · rw [if_pos h1]
    refine ⟨hrt _, Or.inl rfl, fun _ => rfl, ?_, ?_, ?_⟩
    · rintro (h | h) <;> rw [h1] at h <;> exact absurd h (by decide)
    · rintro (h | h) <;> rw [h1] at h <;> exact absurd h (by decide)
    · intro hne _ _
      exact absurd h1 hne
  · rw [if_neg h1]
    by_cases h2 : s.head? = some '0' ∨ s.head? = some '3'
    · rw [if_pos h2]
      refine ⟨hrt _, Or.inr (Or.inl rfl), ?_, fun _ => rfl, ?_, ?_⟩
      · intro h
        exact absurd h h1
      · rintro (h | h) <;> rcases h2 with h2 | h2 <;> rw [h2] at h <;>
          exact absurd h (by decide)
      · intro _ hn2 _
        exact absurd h2 hn2
    · rw [if_neg h2]
      by_cases h3 : s.head? = some '8' ∨ s.head? = some '4'
      · rw [if_pos h3]
        refine ⟨hrt _, Or.inr (Or.inr rfl), ?_, ?_, fun _ => rfl, ?_⟩
        · intro h
          exact absurd h h1
        · intro h
          exact absurd h h2
        · intro _ _ hn3
          exact absurd h3 hn3
      · rw [if_neg h3]
        refine ⟨hrt _, Or.inr (Or.inl rfl), ?_, ?_, ?_, fun _ _ _ => rfl⟩
        · intro h
          exact absurd h h1
        · intro h
          exact absurd h h2
        · intro h
          exact absurd h h3

/-- C10, witness: the round trip at the concrete symbol "600519". -/
theorem ts_code_round_trip_witness :
    ("600519".data.length = 6 ∧ '.' ∉ "600519".data)
    ∧ convert_from_ts_code (convert_to_ts_code "600519".data) = "600519".data :=
  ⟨⟨by decide, by decide⟩,
    (ts_code_round_trip "600519".data (by decide) (by decide)).1⟩

end AStock
